import Mathlib

/-!
Shallow embedding of the fizhub core (device registry, bonding-session state
machine, power manager) together with the SHA-256 digest used by bond-ID
generation.  Definitions are translated from the Go sources in
`src/internal/network/client.go` (packages `network` and `state`) and
`src/internal/power/manager.go`.  Wall-clock time is modelled as an explicit
`Nat` (seconds) threaded through each operation; the RFC3339-formatted
timestamp consumed by `generateBondID` is modelled as the formatted `String`
itself.  Strings are hashed at the byte level; for the ASCII data handled by
the program, `Char.toNat` of each character is exactly its UTF-8 byte.
-/

namespace FizHub

/-! ### SHA-256 (crypto/sha256, FIPS 180-4), on `Nat` words reduced mod 2^32 -/

/-- Right-rotation of a 32-bit word (represented as a `Nat` below 2^32). -/
def rotr (n x : Nat) : Nat := (x >>> n ||| x <<< (32 - n)) % 4294967296

def bsig0 (x : Nat) : Nat := (rotr 2 x) ^^^ (rotr 13 x) ^^^ (rotr 22 x)

def bsig1 (x : Nat) : Nat := (rotr 6 x) ^^^ (rotr 11 x) ^^^ (rotr 25 x)

def ssig0 (x : Nat) : Nat := (rotr 7 x) ^^^ (rotr 18 x) ^^^ (x >>> 3)

def ssig1 (x : Nat) : Nat := (rotr 17 x) ^^^ (rotr 19 x) ^^^ (x >>> 10)

def ch (x y z : Nat) : Nat := (x &&& y) ^^^ ((x ^^^ 4294967295) &&& z)

def maj (x y z : Nat) : Nat := x &&& y ^^^ (x &&& z ^^^ y &&& z)

/-- The 64 SHA-256 round constants of FIPS 180-4 (decimal). -/
def sha256K : List Nat :=
  [1116352408, 1899447441, 3049323471, 3921009573, 961987163, 1508970993,
   2453635748, 2870763221, 3624381080, 310598401, 607225278, 1426881987,
   1925078388, 2162078206, 2614888103, 3248222580, 3835390401, 4022224774,
   264347078, 604807628, 770255983, 1249150122, 1555081692, 1996064986,
   2554220882, 2821834349, 2952996808, 3210313671, 3336571891, 3584528711,
   113926993, 338241895, 666307205, 773529912, 1294757372, 1396182291,
   1695183700, 1986661051, 2177026350, 2456956037, 2730485921, 2820302411,
   3259730800, 3345764771, 3516065817, 3600352804, 4094571909, 275423344,
   430227734, 506948616, 659060556, 883997877, 958139571, 1322822218,
   1537002063, 1747873779, 1955562222, 2024104815, 2227730452, 2361852424,
   2428436474, 2756734187, 3204031479, 3329325298]

/-- The eight 32-bit working registers / hash state of SHA-256. -/
structure Hash8 where
  r0 : Nat
  r1 : Nat
  r2 : Nat
  r3 : Nat
  r4 : Nat
  r5 : Nat
  r6 : Nat
  r7 : Nat
deriving DecidableEq, Repr

def sha256InitH : Hash8 :=
  ⟨1779033703, 3144134277, 1013904242, 2773480762,
   1359893119, 2600822924, 528734635, 1541459225⟩

/-- Extend the 16-word block to the 64-word message schedule (fuel = 48). -/
def extendW : Nat → List Nat → List Nat
  | 0, ws => ws
  | n + 1, ws =>
      let t := ws.length
      extendW n (ws ++ [(ssig1 (ws.getD (t - 2) 0) + ws.getD (t - 7) 0 +
                         ssig0 (ws.getD (t - 15) 0) + ws.getD (t - 16) 0) % 4294967296])

/-- One SHA-256 compression round. -/
def sha256Round (st : Hash8) (kw : Nat × Nat) : Hash8 :=
  let t1 := (st.r7 + bsig1 st.r4 + ch st.r4 st.r5 st.r6 + kw.1 + kw.2) % 4294967296
  let t2 := (bsig0 st.r0 + maj st.r0 st.r1 st.r2) % 4294967296
  ⟨(t1 + t2) % 4294967296, st.r0, st.r1, st.r2, (st.r3 + t1) % 4294967296, st.r4, st.r5, st.r6⟩

/-- Compress one 16-word block into the running hash state. -/
def processBlock (H : Hash8) (block : List Nat) : Hash8 :=
  let ws := extendW 48 block
  let st := (sha256K.zip ws).foldl sha256Round H
  ⟨(H.r0 + st.r0) % 4294967296, (H.r1 + st.r1) % 4294967296,
   (H.r2 + st.r2) % 4294967296, (H.r3 + st.r3) % 4294967296,
   (H.r4 + st.r4) % 4294967296, (H.r5 + st.r5) % 4294967296,
   (H.r6 + st.r6) % 4294967296, (H.r7 + st.r7) % 4294967296⟩

/-- SHA-256 padding of a byte string: 0x80, zeros to 56 mod 64, 64-bit length. -/
def padBytes (msg : List Nat) : List Nat :=
  let L := msg.length
  let k := (119 - (L % 64)) % 64
  let bitLen := 8 * L
  msg ++ [128] ++ List.replicate k 0 ++
    [(bitLen >>> 56) % 256, (bitLen >>> 48) % 256, (bitLen >>> 40) % 256, (bitLen >>> 32) % 256,
     (bitLen >>> 24) % 256, (bitLen >>> 16) % 256, (bitLen >>> 8) % 256, bitLen % 256]

/-- Big-endian grouping of bytes into 32-bit words. -/
def bytesToWords : List Nat → List Nat
  | y0 :: y1 :: y2 :: y3 :: rest =>
      (y0 <<< 24 ||| y1 <<< 16 ||| y2 <<< 8 ||| y3) :: bytesToWords rest
  | _ => []

/-- Split a word list into 16-word blocks (fuel-based structural recursion so
that the kernel can evaluate it; the fuel `ws.length` always suffices). -/
def chunk16Aux : Nat → List Nat → List (List Nat)
  | 0, _ => []
  | _, [] => []
  | fuel + 1, w :: ws => (w :: ws).take 16 :: chunk16Aux fuel ((w :: ws).drop 16)

def chunk16 (ws : List Nat) : List (List Nat) := chunk16Aux ws.length ws

/-- Big-endian byte decomposition of a 32-bit word. -/
def wordBytesBE (w : Nat) : List Nat := [(w >>> 24) % 256, (w >>> 16) % 256, (w >>> 8) % 256, w % 256]

/-- The 32-byte digest read out of the final hash state. -/
def digestBytes (H : Hash8) : List Nat :=
  ([H.r0, H.r1, H.r2, H.r3, H.r4, H.r5, H.r6, H.r7].map wordBytesBE).flatten

/-- SHA-256 of a byte string. -/
def sha256 (msg : List Nat) : List Nat :=
  digestBytes ((chunk16 (bytesToWords (padBytes msg))).foldl processBlock sha256InitH)

/-! ### Hex encoding (encoding/hex, lowercase) -/

def hexDigitChar (n : Nat) : Char := if n < 10 then Char.ofNat (48 + n) else Char.ofNat (87 + n)

def hexEncodeChars : List Nat → List Char
  | [] => []
  | b :: bs => hexDigitChar (b / 16) :: hexDigitChar (b % 16) :: hexEncodeChars bs

/-- The byte sequence of an ASCII string. -/
def strBytes (s : String) : List Nat := s.data.map Char.toNat

/-- Go `fmt` rendering of a `[]string` value: `[elem1 elem2 ...]`. -/
def goFormatStringSlice (uids : List String) : String :=
  "[" ++ String.intercalate " " uids ++ "]"

/-- generateBondID from package state: SHA-256 of
`fmt.Sprintf("%s-%s", timestamp, uids)`, truncated to the first 16 hex chars.
The RFC3339-formatted UTC timestamp is passed in as the string `ts`. -/
def generateBondID (ts : String) (uids : List String) : String :=
  String.mk ((hexEncodeChars (sha256 (strBytes (ts ++ "-" ++ goFormatStringSlice uids)))).take 16)

/-! ### Bonding-session state machine (package state in client.go) -/

/-- Phase from package state. -/
inductive Phase
  | Initial
  | CollectingUIDs
  | Validating
  | RecordingMessage
  | Complete
deriving DecidableEq, Repr

/-- state.Manager.  `lastEvent` is the `time.Now()` recorded by `HandleEvent`;
`errorHandlers` keeps the registered error observers as opaque identifiers
(the Go value is a list of closures; only identity matters for the model). -/
structure Manager where
  currentPhase : Phase
  collectedUIDs : List String
  validAccounts : List String
  bondID : String
  lastEvent : Nat
  errorHandlers : List Nat
deriving DecidableEq, Repr

/-- state.NewManager. -/
def NewManager : Manager :=
  { currentPhase := Phase.Initial, collectedUIDs := [], validAccounts := [], bondID := "",
    lastEvent := 0, errorHandlers := [] }

/-- Manager.Start: unconditionally sets the phase to CollectingUIDs. -/
def Manager.Start (m : Manager) : Manager :=
  { m with currentPhase := Phase.CollectingUIDs }

/-- Manager.Reset. -/
def Manager.Reset (m : Manager) : Manager :=
  { m with
      currentPhase := Phase.CollectingUIDs
      collectedUIDs := []
      validAccounts := []
      bondID := "" }

/-- handleNFCTap; the `Option String` is the returned `error` (its message). -/
def handleNFCTap (m : Manager) (uid : String) : Manager × Option String :=
  if m.currentPhase ≠ Phase.CollectingUIDs then (m, some "not collecting UIDs")
  else if uid ∈ m.collectedUIDs then (m, some "duplicate UID")
  else
    let m1 := { m with collectedUIDs := m.collectedUIDs ++ [uid] }
    if m1.collectedUIDs.length = 3 then
      ({ m1 with currentPhase := Phase.Validating }, none)
    else (m1, none)

/-- handleUIDValidated; `ts` is the RFC3339 timestamp string used by
`generateBondID` at the moment of the event. -/
def handleUIDValidated (m : Manager) (ts : String) (accounts : List String) :
    Manager × Option String :=
  if m.currentPhase ≠ Phase.Validating then (m, some "not in validation phase")
  else
    ({ m with
         validAccounts := accounts
         bondID := generateBondID ts m.collectedUIDs
         currentPhase := Phase.RecordingMessage }, none)

/-- handleRecordingStarted. -/
def handleRecordingStarted (m : Manager) : Manager × Option String :=
  if m.currentPhase ≠ Phase.RecordingMessage then (m, some "not in recording phase")
  else (m, none)

/-- handleRecordingComplete. -/
def handleRecordingComplete (m : Manager) : Manager × Option String :=
  if m.currentPhase ≠ Phase.RecordingMessage then (m, some "not in recording phase")
  else ({ m with currentPhase := Phase.Complete }, none)

/-- The event together with its `data interface\x7b\x7d` payload. -/
inductive EventData
  | nfcTap (uid : String)
  | uidValidated (accounts : List String)
  | recordingStarted
  | recordingComplete
  | errorEvent (msg : String)
deriving DecidableEq, Repr

/-- Manager.HandleEvent.  Returns the new state, the returned error, and the
list of error observers invoked by handleError (empty for non-error events).
`now` is the time recorded into `lastEvent`; `ts` the formatted timestamp
passed down to bond-ID generation. -/
def HandleEvent (m : Manager) (now : Nat) (ts : String) (ev : EventData) :
    Manager × Option String × List Nat :=
  let m0 := { m with lastEvent := now }
  match ev with
  | EventData.nfcTap uid =>
      let r := handleNFCTap m0 uid
      (r.1, r.2, [])
  | EventData.uidValidated accounts =>
      let r := handleUIDValidated m0 ts accounts
      (r.1, r.2, [])
  | EventData.recordingStarted =>
      let r := handleRecordingStarted m0
      (r.1, r.2, [])
  | EventData.recordingComplete =>
      let r := handleRecordingComplete m0
      (r.1, r.2, [])
  | EventData.errorEvent _ =>
      (m0, none, m0.errorHandlers)

/-- The operations a caller can perform on the session. -/
inductive Op
  | start
  | event (now : Nat) (ts : String) (ev : EventData)
  | reset
deriving DecidableEq, Repr

def applyOp (m : Manager) (op : Op) : Manager :=
  match op with
  | Op.start => m.Start
  | Op.event now ts ev => (HandleEvent m now ts ev).1
  | Op.reset => m.Reset

def run (m : Manager) (ops : List Op) : Manager := ops.foldl applyOp m

/-- Sequential taps through handleNFCTap (errors discarded, as in the Go
callers, which log and continue). -/
def applyTaps (m : Manager) (uids : List String) : Manager :=
  uids.foldl (fun s u => (handleNFCTap s u).1) m

/-- `true` when every `start` in the sequence is performed while the phase is
`Initial`. -/
def startsOnlyFromInitial (m : Manager) : List Op → Bool
  | [] => true
  | op :: rest =>
      (match op with
       | Op.start => decide (m.currentPhase = Phase.Initial)
       | _ => true) && startsOnlyFromInitial (applyOp m op) rest

/-- Shorthand for a tap event operation. -/
def tapOp (u : String) : Op := Op.event 0 "" (EventData.nfcTap u)

/-! ### Device registry (MQTTBroker in client.go, package network)

The Go registry stores `*ReaderDevice` pointers in a map and mutates the
pointed-to records in place.  The model makes the heap explicit: `heap` is the
list of allocated `ReaderDevice` cells, an address is an index into it, and
`devices` maps a device ID to the address its map entry points at.  `GetDevices`
returns the addresses, exactly as the Go code returns the pointers. -/

structure ReaderDevice where
  deviceID : String
  type : String
  firmware : String
  ip : String
  lastSeen : Nat
  status : String
  rssi : Int
deriving DecidableEq, Repr

structure MQTTBroker where
  heap : List ReaderDevice
  devices : List (String × Nat)
deriving DecidableEq, Repr

/-- NewMQTTBroker: empty device map. -/
def emptyBroker : MQTTBroker := { heap := [], devices := [] }

/-- In-place mutation of the heap cell at address `a` (no-op when unallocated). -/
def applyAt (h : List ReaderDevice) (a : Nat) (f : ReaderDevice → ReaderDevice) :
    List ReaderDevice :=
  match h[a]? with
  | some d => h.set a (f d)
  | none => h

/-- Go map assignment `b.devices[id] = ptr`: replace the binding if the key
exists, otherwise add it. -/
def setAssoc (l : List (String × Nat)) (id : String) (a : Nat) : List (String × Nat) :=
  if l.any (fun p => p.1 == id) then l.map (fun p => if p.1 == id then (id, a) else p)
  else l ++ [(id, a)]

def lookupDevice (l : List (String × Nat)) (id : String) : Option Nat :=
  (l.find? (fun p => p.1 == id)).map Prod.snd

/-- registerDevice: allocates a fresh record with `lastSeen = now`,
`status = "online"` and points the map entry at it. -/
def registerDevice (b : MQTTBroker) (d : ReaderDevice) (now : Nat) : MQTTBroker :=
  { heap := b.heap ++ [{ d with lastSeen := now, status := "online" }],
    devices := setAssoc b.devices d.deviceID b.heap.length }

/-- updateDeviceStatus: mutates the existing record in place if the device is
known, otherwise does nothing. -/
def updateDeviceStatus (b : MQTTBroker) (id status : String) (rssi : Int) (now : Nat) :
    MQTTBroker :=
  match lookupDevice b.devices id with
  | some a =>
      { b with heap := applyAt b.heap a (fun d => { d with status := status, rssi := rssi, lastSeen := now }) }
  | none => b

/-- GetDevices: copies the map values into a fresh slice — of pointers. -/
def GetDevices (b : MQTTBroker) : List Nat := b.devices.map Prod.snd

/-- What a caller holding the returned pointers observes later. -/
def derefDevices (b : MQTTBroker) (ptrs : List Nat) : List (Option ReaderDevice) :=
  ptrs.map fun a => b.heap[a]?

/-- The per-device liveness rule applied by the sweeper. -/
def sweepDevice (now : Nat) (d : ReaderDevice) : ReaderDevice :=
  if d.status = "online" ∧ now - d.lastSeen > 60 then { d with status := "offline" } else d

/-- checkInactiveDevices: every device reachable from the map is demoted to
offline when online and silent for more than 60 seconds. -/
def checkInactiveDevices (b : MQTTBroker) (now : Nat) : MQTTBroker :=
  { b with heap := b.devices.foldl (fun h p => applyAt h p.2 (sweepDevice now)) b.heap }

/-! ### Power manager (src/internal/power/manager.go)

`deepSleepTimer` models the `*time.Timer`: `none` is the nil pointer, `some
none` a timer that has already fired, `some (some t)` a timer armed to fire at
absolute time `t`.  Note that `NewManager` stores only `IdleTimeout` from the
config — `Config.DeepSleepDelay` is dropped. -/

inductive PState
  | StateActive
  | StateIdle
  | StateDeepSleep
deriving DecidableEq, Repr

structure PowerConfig where
  idleTimeout : Nat
  deepSleepDelay : Nat
deriving DecidableEq, Repr

structure PowerManager where
  state : PState
  idleTimeout : Nat
  lastActivity : Nat
  deepSleepTimer : Option (Option Nat)
deriving DecidableEq, Repr

/-- power.NewManager: `cfg.deepSleepDelay` is not stored anywhere. -/
def newPowerManager (cfg : PowerConfig) (now : Nat) : PowerManager :=
  { state := PState.StateActive, idleTimeout := cfg.idleTimeout, lastActivity := now,
    deepSleepTimer := none }

/-- RecordActivity: reset the activity clock, force Active, and re-arm the
deep-sleep timer (with `idleTimeout`) if it exists. -/
def recordActivity (now : Nat) (m : PowerManager) : PowerManager :=
  let m1 := { m with lastActivity := now }
  let m2 := if m1.state ≠ PState.StateActive then { m1 with state := PState.StateActive } else m1
  match m2.deepSleepTimer with
  | some _ => { m2 with deepSleepTimer := some (some (now + m2.idleTimeout)) }
  | none => m2

/-- checkIdleState: after `idleTimeout` of inactivity in Active, move to Idle
and arm the deep-sleep timer to fire `idleTimeout` later (the code passes
`m.idleTimeout`, not a deep-sleep delay, to `time.AfterFunc`). -/
def checkIdleState (now : Nat) (m : PowerManager) : PowerManager :=
  if now - m.lastActivity ≥ m.idleTimeout ∧ m.state = PState.StateActive then
    { m with state := PState.StateIdle, deepSleepTimer := some (some (now + m.idleTimeout)) }
  else m

/-- enterDeepSleep: unconditional transition executed when the timer fires. -/
def enterDeepSleep (m : PowerManager) : PowerManager :=
  { m with state := PState.StateDeepSleep }

/-- The armed timer firing at or after its deadline. -/
def fireDeepSleepTimer (now : Nat) (m : PowerManager) : PowerManager :=
  match m.deepSleepTimer with
  | some (some t) =>
      if t ≤ now then { (enterDeepSleep m) with deepSleepTimer := some none } else m
  | _ => m

/-- WakeUp: only acts in DeepSleep; forces Active and resets `lastActivity`. -/
def wakeUp (now : Nat) (m : PowerManager) : PowerManager :=
  if m.state ≠ PState.StateDeepSleep then m
  else { m with state := PState.StateActive, lastActivity := now }

inductive PowerOp
  | record
  | check
  | fire
  | wake
deriving DecidableEq, Repr

def applyPowerOp (op : PowerOp) (now : Nat) (m : PowerManager) : PowerManager :=
  match op with
  | PowerOp.record => recordActivity now m
  | PowerOp.check => checkIdleState now m
  | PowerOp.fire => fireDeepSleepTimer now m
  | PowerOp.wake => wakeUp now m

def runPower (m : PowerManager) (tr : List (Nat × PowerOp)) : PowerManager :=
  tr.foldl (fun s p => applyPowerOp p.2 p.1 s) m

/-! ### Concrete states used by several theorems -/

/-- A fresh session after Start and three distinct taps. -/
def sessionAfterThree : Manager :=
  run NewManager [Op.start, tapOp "u1", tapOp "u2", tapOp "u3"]

/-- Start invoked again mid-session, then a fourth tap. -/
def opsStartBypass : List Op :=
  [Op.start, tapOp "a", tapOp "b", tapOp "c", Op.start, tapOp "d"]

def dev0 : ReaderDevice :=
  { deviceID := "FIZR001", type := "reader", firmware := "1.0", ip := "10.0.0.5",
    lastSeen := 0, status := "", rssi := 0 }

/-- The registry after `dev0` registers at time 0. -/
def bReg : MQTTBroker := registerDevice emptyBroker dev0 0

def pmCfg : PowerConfig := { idleTimeout := 2, deepSleepDelay := 10 }

/-- Ticker checks at 1,2,3 then the armed deep-sleep timer fires at 4. -/
def pmAfterTrace : PowerManager :=
  runPower (newPowerManager pmCfg 0)
    [(1, PowerOp.check), (2, PowerOp.check), (3, PowerOp.check), (4, PowerOp.fire)]

/-- A reachable DeepSleep state of the power manager. -/
def pmDeep : PowerManager :=
  runPower (newPowerManager pmCfg 0) [(2, PowerOp.check), (4, PowerOp.fire)]

/-! ### Helper lemmas about tap collection -/

/-- Running a batch of (pairwise fresh) taps from `CollectingUIDs` appends all
of them and flips the phase to `Validating` exactly when the third entry is
reached. -/
lemma applyTaps_spec (uids : List String) : ∀ m : Manager,
    m.currentPhase = Phase.CollectingUIDs →
    (m.collectedUIDs ++ uids).Nodup →
    m.collectedUIDs.length + uids.length ≤ 3 →
    (applyTaps m uids).collectedUIDs = m.collectedUIDs ++ uids ∧
    (applyTaps m uids).currentPhase =
      (if m.collectedUIDs.length + uids.length = 3 ∧ uids ≠ [] then Phase.Validating
       else Phase.CollectingUIDs) := by
  induction uids with
  | nil =>
      intro m h1 _ _
      refine ⟨by simp [applyTaps], ?_⟩
      simpa [applyTaps] using h1
  | cons u rest ih =>
      intro m h1 h2 h3
      have hdup : u ∉ m.collectedUIDs := by
        rw [List.nodup_append] at h2
        exact fun hc => h2.2.2 hc (List.mem_cons_self u rest)
      have happ : applyTaps m (u :: rest) = applyTaps (handleNFCTap m u).1 rest := rfl
      by_cases hc : m.collectedUIDs.length + 1 = 3
      · have hrest : rest = [] := by
          have hr : rest.length = 0 := by
            simp only [List.length_cons] at h3
            omega
          exact List.eq_nil_of_length_eq_zero hr
        subst hrest
        have hc2 : (m.collectedUIDs ++ [u]).length = 3 := by
          simpa using hc
        have hstep : (handleNFCTap m u).1 =
            { m with collectedUIDs := m.collectedUIDs ++ [u], currentPhase := Phase.Validating } := by
          simp [handleNFCTap, h1, hdup, hc2]
        rw [happ, hstep]
        refine ⟨by simp [applyTaps], ?_⟩
        have hcond : m.collectedUIDs.length + ([u] : List String).length = 3 ∧
            ([u] : List String) ≠ [] := ⟨by simpa using hc, by simp⟩
        rw [if_pos hcond]
        simp [applyTaps]
      · have hc2 : ¬ (m.collectedUIDs ++ [u]).length = 3 := by
          simpa using hc
        have hc3 : ¬ m.collectedUIDs.length = 2 := by omega
        have hstep : (handleNFCTap m u).1 =
            { m with collectedUIDs := m.collectedUIDs ++ [u] } := by
          simp [handleNFCTap, h1, hdup, hc2, hc3]
        rw [happ, hstep]
        obtain ⟨ihc, ihp⟩ :=
          ih { m with collectedUIDs := m.collectedUIDs ++ [u] }
            (by simpa using h1)
            (by simpa [List.append_assoc] using h2)
            (by simp only [List.length_append, List.length_singleton]
                simp only [List.length_cons] at h3
                omega)
        constructor
        · rw [ihc]; simp
        · rw [ihp]
          by_cases ht : m.collectedUIDs.length + (u :: rest).length = 3
          · have hrne : rest ≠ [] := by
              intro hre
              subst hre
              simp only [List.length_cons, List.length_nil] at ht
              omega
            have h4 : ({ m with collectedUIDs := m.collectedUIDs ++ [u] } :
                Manager).collectedUIDs.length + rest.length = 3 ∧ rest ≠ [] := by
              refine ⟨?_, hrne⟩
              simp only [List.length_append, List.length_singleton]
              simp only [List.length_cons] at ht
              omega
            rw [if_pos h4, if_pos ⟨ht, by simp⟩]
          · have h4 : ¬ (({ m with collectedUIDs := m.collectedUIDs ++ [u] } :
                Manager).collectedUIDs.length + rest.length = 3 ∧ rest ≠ []) := by
              rintro ⟨hx, -⟩
              apply ht
              simp only [List.length_append, List.length_singleton] at hx
              simp only [List.length_cons]
              omega
            rw [if_neg h4, if_neg (by rintro ⟨hx, -⟩; exact ht hx)]

/-! ### Theorems for the claims -/

/-- C1: from a freshly collecting session (phase `CollectingUIDs`, no UIDs
yet), any sequence of at most 3 pairwise-distinct taps keeps the phase at
`CollectingUIDs` after each of the first two taps and moves it to `Validating`
exactly upon the third; the collected list is exactly the submitted prefix. -/
theorem c1_three_distinct_taps (uids : List String) (m : Manager)
    (hphase : m.currentPhase = Phase.CollectingUIDs)
    (hempty : m.collectedUIDs = [])
    (hnd : uids.Nodup) (hlen : uids.length ≤ 3) (k : Nat) (hk : k ≤ uids.length) :
    (applyTaps m (uids.take k)).currentPhase =
      (if k = 3 then Phase.Validating else Phase.CollectingUIDs) ∧
    (applyTaps m (uids.take k)).collectedUIDs = uids.take k := by
  have htl : (uids.take k).length = k := by
    simp only [List.length_take]
    omega
  have hnd2 : (m.collectedUIDs ++ uids.take k).Nodup := by
    rw [hempty, List.nil_append]
    exact List.Nodup.sublist (List.take_sublist k uids) hnd
  have hlen2 : m.collectedUIDs.length + (uids.take k).length ≤ 3 := by
    rw [hempty]
    simp only [List.length_nil, Nat.zero_add, htl]
    omega
  obtain ⟨hcoll, hph⟩ := applyTaps_spec (uids.take k) m hphase hnd2 hlen2
  refine ⟨?_, by rw [hcoll, hempty, List.nil_append]⟩
  rw [hph]
  by_cases hk3 : k = 3
  · have hne : uids.take k ≠ [] := by
      intro h0
      rw [h0] at htl
      simp at htl
      omega
    rw [if_pos ⟨by rw [hempty]; simpa [htl], hne⟩, if_pos hk3]
  · rw [if_neg ?hcnd, if_neg hk3]
    rintro ⟨hx, -⟩
    apply hk3
    rw [hempty] at hx
    simp only [List.length_nil, Nat.zero_add, htl] at hx
    exact hx

/-- Witness for C1: Start on a fresh manager, then the three distinct taps
u1, u2, u3: after the full prefix the phase is Validating. -/
theorem c1_three_distinct_taps_witness :
    ((applyTaps NewManager.Start (["u1", "u2", "u3"].take 3)).currentPhase =
      (if 3 = 3 then Phase.Validating else Phase.CollectingUIDs)) ∧
    (applyTaps NewManager.Start (["u1", "u2", "u3"].take 3)).collectedUIDs =
      ["u1", "u2", "u3"].take 3 :=
  c1_three_distinct_taps ["u1", "u2", "u3"] NewManager.Start rfl rfl (by decide) (by decide)
    3 (by decide)

/-- A single tap never introduces a duplicate into `collectedUIDs`. -/
lemma nodup_handleNFCTap (m : Manager) (u : String) (h : m.collectedUIDs.Nodup) :
    (handleNFCTap m u).1.collectedUIDs.Nodup := by
  by_cases h1 : m.currentPhase = Phase.CollectingUIDs
  · by_cases h2 : u ∈ m.collectedUIDs
    · simpa [handleNFCTap, h1, h2] using h
    · have hdisj : List.Disjoint m.collectedUIDs [u] := by
        intro a ha hu
        simp only [List.mem_singleton] at hu
        exact h2 (hu ▸ ha)
      have happend : (m.collectedUIDs ++ [u]).Nodup :=
        List.nodup_append.mpr ⟨h, List.nodup_singleton u, hdisj⟩
      by_cases h3 : m.collectedUIDs.length = 2 <;>
        simpa [handleNFCTap, h1, h2, h3] using happend
  · simpa [handleNFCTap, h1] using h

/-- Every session operation preserves duplicate-freeness of `collectedUIDs`. -/
lemma nodup_applyOp (m : Manager) (op : Op) (h : m.collectedUIDs.Nodup) :
    (applyOp m op).collectedUIDs.Nodup := by
  cases op with
  | start => simpa [applyOp, Manager.Start] using h
  | reset => simp [applyOp, Manager.Reset]
  | event now ts ev =>
      cases ev with
      | nfcTap uid =>
          simpa [applyOp, HandleEvent] using
            nodup_handleNFCTap { m with lastEvent := now } uid (by simpa using h)
      | uidValidated accounts =>
          by_cases h1 : m.currentPhase = Phase.Validating <;>
            simp [applyOp, HandleEvent, handleUIDValidated, h1] <;> exact h
      | recordingStarted =>
          by_cases h1 : m.currentPhase = Phase.RecordingMessage <;>
            simp [applyOp, HandleEvent, handleRecordingStarted, h1] <;> exact h
      | recordingComplete =>
          by_cases h1 : m.currentPhase = Phase.RecordingMessage <;>
            simp [applyOp, HandleEvent, handleRecordingComplete, h1] <;> exact h
      | errorEvent e => simpa [applyOp, HandleEvent] using h

lemma run_nodup (ops : List Op) : ∀ m : Manager,
    m.collectedUIDs.Nodup → (run m ops).collectedUIDs.Nodup := by
  induction ops with
  | nil => intro m h; simpa [run] using h
  | cons op rest ih => intro m h; exact ih (applyOp m op) (nodup_applyOp m op h)

/-- The reachable-state invariant behind the `length ≤ 3` bound: at most 3
UIDs, strictly fewer than 3 while still collecting, none before Start. -/
def InvLen (m : Manager) : Prop :=
  m.collectedUIDs.length ≤ 3 ∧
  (m.currentPhase = Phase.CollectingUIDs → m.collectedUIDs.length < 3) ∧
  (m.currentPhase = Phase.Initial → m.collectedUIDs = [])

lemma invLen_applyOp (m : Manager) (op : Op) (hInv : InvLen m)
    (hstart : op = Op.start → m.currentPhase = Phase.Initial) :
    InvLen (applyOp m op) := by
  obtain ⟨hA, hB, hC⟩ := hInv
  cases op with
  | start =>
      have hnil := hC (hstart rfl)
      refine ⟨?_, ?_, ?_⟩ <;> simp [applyOp, Manager.Start, hnil]
  | reset => refine ⟨?_, ?_, ?_⟩ <;> simp [applyOp, Manager.Reset]
  | event now ts ev =>
      cases ev with
      | nfcTap uid =>
          by_cases h1 : m.currentPhase = Phase.CollectingUIDs
          · by_cases h2 : uid ∈ m.collectedUIDs
            · have heq : applyOp m (Op.event now ts (EventData.nfcTap uid)) =
                  { m with lastEvent := now } := by
                simp [applyOp, HandleEvent, handleNFCTap, h1, h2]
              rw [heq]
              exact ⟨hA, hB, hC⟩
            · have hlt := hB h1
              by_cases h3 : m.collectedUIDs.length = 2
              · have heq : applyOp m (Op.event now ts (EventData.nfcTap uid)) =
                    { m with
                        lastEvent := now
                        collectedUIDs := m.collectedUIDs ++ [uid]
                        currentPhase := Phase.Validating } := by
                  simp [applyOp, HandleEvent, handleNFCTap, h1, h2, h3]
                rw [heq]
                refine ⟨by simp; omega, by simp, by simp⟩
              · have heq : applyOp m (Op.event now ts (EventData.nfcTap uid)) =
                    { m with
                        lastEvent := now
                        collectedUIDs := m.collectedUIDs ++ [uid] } := by
                  simp [applyOp, HandleEvent, handleNFCTap, h1, h2, h3]
                rw [heq]
                refine ⟨by simp; omega, fun _ => by simp; omega, ?_⟩
                intro hini
                rw [show ({ m with
                    lastEvent := now
                    collectedUIDs := m.collectedUIDs ++ [uid] } : Manager).currentPhase =
                    m.currentPhase from rfl, h1] at hini
                exact absurd hini (by decide)
          · have heq : applyOp m (Op.event now ts (EventData.nfcTap uid)) =
                { m with lastEvent := now } := by
              simp [applyOp, HandleEvent, handleNFCTap, h1]
            rw [heq]
            exact ⟨hA, hB, hC⟩
      | uidValidated accounts =>
          by_cases h1 : m.currentPhase = Phase.Validating
          · have heq : applyOp m (Op.event now ts (EventData.uidValidated accounts)) =
                { m with
                    lastEvent := now
                    validAccounts := accounts
                    bondID := generateBondID ts m.collectedUIDs
                    currentPhase := Phase.RecordingMessage } := by
              simp [applyOp, HandleEvent, handleUIDValidated, h1]
            rw [heq]
            exact ⟨hA, by simp, by simp⟩
          · have heq : applyOp m (Op.event now ts (EventData.uidValidated accounts)) =
                { m with lastEvent := now } := by
              simp [applyOp, HandleEvent, handleUIDValidated, h1]
            rw [heq]
            exact ⟨hA, hB, hC⟩
      | recordingStarted =>
          have heq : applyOp m (Op.event now ts EventData.recordingStarted) =
              { m with lastEvent := now } := by
            by_cases h1 : m.currentPhase = Phase.RecordingMessage <;>
              simp [applyOp, HandleEvent, handleRecordingStarted, h1]
          rw [heq]
          exact ⟨hA, hB, hC⟩
      | recordingComplete =>
          by_cases h1 : m.currentPhase = Phase.RecordingMessage
          · have heq : applyOp m (Op.event now ts EventData.recordingComplete) =
                { m with
                    lastEvent := now
                    currentPhase := Phase.Complete } := by
              simp [applyOp, HandleEvent, handleRecordingComplete, h1]
            rw [heq]
            exact ⟨hA, by simp, by simp⟩
          · have heq : applyOp m (Op.event now ts EventData.recordingComplete) =
                { m with lastEvent := now } := by
              simp [applyOp, HandleEvent, handleRecordingComplete, h1]
            rw [heq]
            exact ⟨hA, hB, hC⟩
      | errorEvent e =>
          have heq : applyOp m (Op.event now ts (EventData.errorEvent e)) =
              { m with lastEvent := now } := by
            simp [applyOp, HandleEvent]
          rw [heq]
          exact ⟨hA, hB, hC⟩

lemma run_invLen (ops : List Op) : ∀ m : Manager, InvLen m →
    startsOnlyFromInitial m ops = true → InvLen (run m ops) := by
  induction ops with
  | nil => intro m h _; simpa [run] using h
  | cons op rest ih =>
      intro m h hso
      simp only [startsOnlyFromInitial, Bool.and_eq_true] at hso
      refine ih (applyOp m op) (invLen_applyOp m op h ?_) hso.2
      intro hop
      subst hop
      simpa using hso.1

/-- C2 (amended): under every operation sequence `collectedUIDs` stays
duplicate-free; and provided Start is only invoked while the phase is
`Initial` (the code's Start is unguarded and otherwise re-enters collection
without clearing the list), its length also stays at most 3. -/
theorem c2_collected_invariants :
    (∀ ops : List Op, (run NewManager ops).collectedUIDs.Nodup) ∧
    (∀ ops : List Op, startsOnlyFromInitial NewManager ops = true →
      (run NewManager ops).collectedUIDs.length ≤ 3) :=
  ⟨fun ops => run_nodup ops NewManager (by decide),
   fun ops h => (run_invLen ops NewManager ⟨by decide, by decide, by decide⟩ h).1⟩

/-- Witness for the amended C2 theorem on a concrete well-started sequence. -/
theorem c2_collected_invariants_witness :
    (run NewManager [Op.start, tapOp "a", tapOp "b"]).collectedUIDs.length ≤ 3 :=
  c2_collected_invariants.2 [Op.start, tapOp "a", tapOp "b"] (by decide)

/-- C4: a duplicate tap in `CollectingUIDs` returns the duplicate-UID error,
a tap in any other phase returns the wrong-phase error, and in both cases
phase, collectedUIDs, validatedAccounts and bondID are unchanged. -/
theorem c4_tap_error_frame :
    (∀ (m : Manager) (now : Nat) (ts uid : String),
      m.currentPhase = Phase.CollectingUIDs → uid ∈ m.collectedUIDs →
      (HandleEvent m now ts (EventData.nfcTap uid)).2.1 = some "duplicate UID" ∧
      (HandleEvent m now ts (EventData.nfcTap uid)).1.currentPhase = m.currentPhase ∧
      (HandleEvent m now ts (EventData.nfcTap uid)).1.collectedUIDs = m.collectedUIDs ∧
      (HandleEvent m now ts (EventData.nfcTap uid)).1.validAccounts = m.validAccounts ∧
      (HandleEvent m now ts (EventData.nfcTap uid)).1.bondID = m.bondID) ∧
    (∀ (m : Manager) (now : Nat) (ts uid : String),
      m.currentPhase ≠ Phase.CollectingUIDs →
      (HandleEvent m now ts (EventData.nfcTap uid)).2.1 = some "not collecting UIDs" ∧
      (HandleEvent m now ts (EventData.nfcTap uid)).1.currentPhase = m.currentPhase ∧
      (HandleEvent m now ts (EventData.nfcTap uid)).1.collectedUIDs = m.collectedUIDs ∧
      (HandleEvent m now ts (EventData.nfcTap uid)).1.validAccounts = m.validAccounts ∧
      (HandleEvent m now ts (EventData.nfcTap uid)).1.bondID = m.bondID) := by
  constructor
  · intro m now ts uid h1 h2
    simp [HandleEvent, handleNFCTap, h1, h2]
  · intro m now ts uid h1
    simp [HandleEvent, handleNFCTap, h1]

/-- A session that already collected "abc123" while collecting. -/
def mDup : Manager :=
  { NewManager with currentPhase := Phase.CollectingUIDs, collectedUIDs := ["abc123"] }

/-- Witness for C4: tapping "abc123" twice yields the duplicate error and
leaves the session unchanged; tapping a fresh manager (phase Initial) yields
the wrong-phase error. -/
theorem c4_tap_error_frame_witness :
    ((HandleEvent mDup 7 "" (EventData.nfcTap "abc123")).2.1 = some "duplicate UID" ∧
     (HandleEvent mDup 7 "" (EventData.nfcTap "abc123")).1.currentPhase = mDup.currentPhase ∧
     (HandleEvent mDup 7 "" (EventData.nfcTap "abc123")).1.collectedUIDs = mDup.collectedUIDs ∧
     (HandleEvent mDup 7 "" (EventData.nfcTap "abc123")).1.validAccounts = mDup.validAccounts ∧
     (HandleEvent mDup 7 "" (EventData.nfcTap "abc123")).1.bondID = mDup.bondID) ∧
    ((HandleEvent NewManager 7 "" (EventData.nfcTap "x")).2.1 = some "not collecting UIDs" ∧
     (HandleEvent NewManager 7 "" (EventData.nfcTap "x")).1.currentPhase =
       NewManager.currentPhase ∧
     (HandleEvent NewManager 7 "" (EventData.nfcTap "x")).1.collectedUIDs =
       NewManager.collectedUIDs ∧
     (HandleEvent NewManager 7 "" (EventData.nfcTap "x")).1.validAccounts =
       NewManager.validAccounts ∧
     (HandleEvent NewManager 7 "" (EventData.nfcTap "x")).1.bondID = NewManager.bondID) :=
  ⟨c4_tap_error_frame.1 mDup 7 "" "abc123" rfl (by decide),
   c4_tap_error_frame.2 NewManager 7 "" "x" (by decide)⟩

/-- C5 counterexample: after Start and three taps the phase is `Validating`
(in particular not `Initial`), yet invoking Start does change the phase to
`CollectingUIDs` — the code's Start is not guarded by the `Initial` phase,
contradicting the claim that Start outside `Initial` never moves the phase to
`CollectingTaps`. -/
theorem c5_start_not_guarded_counterexample :
    sessionAfterThree.currentPhase = Phase.Validating ∧
    sessionAfterThree.currentPhase ≠ Phase.Initial ∧
    sessionAfterThree.Start.currentPhase = Phase.CollectingUIDs := by decide

/-- C5 (amended): `Start` unconditionally sets the phase to `CollectingUIDs`
from every phase — in particular it performs `Initial → CollectingTaps` — and
touches no other session field. -/
theorem c5_start_unconditional (m : Manager) :
    m.Start.currentPhase = Phase.CollectingUIDs ∧
    m.Start.collectedUIDs = m.collectedUIDs ∧
    m.Start.validAccounts = m.validAccounts ∧
    m.Start.bondID = m.bondID :=
  ⟨rfl, rfl, rfl, rfl⟩

/-- C6: a generic error event invokes exactly the registered error observers,
returns no error, and leaves phase, collectedUIDs, validatedAccounts and
bondID unchanged. -/
theorem c6_error_event_frame (m : Manager) (now : Nat) (ts msg : String) :
    (HandleEvent m now ts (EventData.errorEvent msg)).2.2 = m.errorHandlers ∧
    (HandleEvent m now ts (EventData.errorEvent msg)).2.1 = none ∧
    (HandleEvent m now ts (EventData.errorEvent msg)).1.currentPhase = m.currentPhase ∧
    (HandleEvent m now ts (EventData.errorEvent msg)).1.collectedUIDs = m.collectedUIDs ∧
    (HandleEvent m now ts (EventData.errorEvent msg)).1.validAccounts = m.validAccounts ∧
    (HandleEvent m now ts (EventData.errorEvent msg)).1.bondID = m.bondID :=
  ⟨rfl, rfl, rfl, rfl, rfl, rfl⟩

/-- C2 counterexample: the operation sequence Start, tap a, tap b, tap c,
Start, tap d drives `collectedUIDs` to length 4, violating the claimed
`length ≤ 3` invariant (the duplicate-freeness half still holds on this run,
but the conjunction is false). -/
theorem c2_length_invariant_counterexample :
    ¬ ((run NewManager opsStartBypass).collectedUIDs.length ≤ 3 ∧
       (run NewManager opsStartBypass).collectedUIDs.Nodup) := by decide

/-! ### Heap lemmas for the device registry -/

lemma applyAt_get_self (h : List ReaderDevice) (a : Nat) (f : ReaderDevice → ReaderDevice) :
    (applyAt h a f)[a]? = h[a]?.map f := by
  cases hg : h[a]? with
  | none => simp [applyAt, hg]
  | some d =>
      have hlt : a < h.length := by
        by_contra hge
        rw [List.getElem?_eq_none (Nat.le_of_not_lt hge)] at hg
        cases hg
      simp [applyAt, hg, List.getElem?_set_self hlt]

lemma applyAt_get_other (h : List ReaderDevice) (a b : Nat) (f : ReaderDevice → ReaderDevice)
    (hne : a ≠ b) : (applyAt h a f)[b]? = h[b]? := by
  cases hg : h[a]? with
  | none => simp [applyAt, hg]
  | some d => simp [applyAt, hg, List.getElem?_set_ne hne]

/-- Effect of the sweeper fold on each heap cell, assuming the map's addresses
are distinct (always true of reachable registries: each registration
allocates a fresh cell). -/
lemma sweep_fold (now : Nat) (l : List (String × Nat)) : ∀ (h : List ReaderDevice) (a : Nat),
    (l.map Prod.snd).Nodup →
    (l.foldl (fun hh p => applyAt hh p.2 (sweepDevice now)) h)[a]? =
      (if a ∈ l.map Prod.snd then h[a]?.map (sweepDevice now) else h[a]?) := by
  induction l with
  | nil => intro h a _; simp
  | cons p l ih =>
      intro h a hnd
      rw [List.map_cons, List.nodup_cons] at hnd
      obtain ⟨hp, hnd2⟩ := hnd
      rw [List.foldl_cons, ih (applyAt h p.2 (sweepDevice now)) a hnd2, List.map_cons]
      by_cases hab : a = p.2
      · subst hab
        rw [if_neg (fun hmem => hp hmem), applyAt_get_self,
          if_pos (List.mem_cons_self _ _)]
      · have hoth : (applyAt h p.2 (sweepDevice now))[a]? = h[a]? :=
          applyAt_get_other h p.2 a _ (fun he => hab he.symm)
        rw [hoth]
        by_cases hmem : a ∈ l.map Prod.snd
        · rw [if_pos hmem, if_pos (List.mem_cons_of_mem _ hmem)]
        · rw [if_neg hmem, if_neg ?hnm]
          intro hc
          rcases List.mem_cons.mp hc with hc1 | hc2
          · exact hab hc1
          · exact hmem hc2

/-- The still-online scenario: register at 0, status update at 40, sweeps at
30 and 60; read at 61 (no sweep occurs at 61). -/
def bScenStillOnline : MQTTBroker :=
  checkInactiveDevices (updateDeviceStatus (checkInactiveDevices bReg 30)
    "FIZR001" "online" (-40) 40) 60

/-- The gone-offline scenario: register at 0, then silence; sweeps at 30, 60
and 90 (the first sweep strictly past the 60-second timeout). -/
def bScenOffline : MQTTBroker :=
  checkInactiveDevices (checkInactiveDevices (checkInactiveDevices bReg 30) 60) 90

/-- C7: the sweep maps every device reachable from the registry through
`sweepDevice`, which sets status to offline exactly when the device is online
and more than 60 seconds stale, and leaves everything else untouched; a status
update for a known device refreshes `lastSeen`; and the two concrete
scenarios: updated-at-40 still online at 61, silent-since-0 offline after the
sweep at 90. -/
theorem c7_liveness_sweep :
    (∀ (b : MQTTBroker) (now a : Nat), (b.devices.map Prod.snd).Nodup →
      (checkInactiveDevices b now).heap[a]? =
        (if a ∈ b.devices.map Prod.snd then b.heap[a]?.map (sweepDevice now)
         else b.heap[a]?)) ∧
    (∀ (now : Nat) (d : ReaderDevice),
      ((sweepDevice now d).status =
        (if d.status = "online" ∧ now - d.lastSeen > 60 then "offline" else d.status)) ∧
      (sweepDevice now d).lastSeen = d.lastSeen ∧
      (sweepDevice now d).deviceID = d.deviceID) ∧
    (∀ (b : MQTTBroker) (id s : String) (r : Int) (now a : Nat),
      lookupDevice b.devices id = some a →
      (updateDeviceStatus b id s r now).heap[a]? =
        b.heap[a]?.map (fun d => { d with status := s, rssi := r, lastSeen := now })) ∧
    (bScenStillOnline.heap[0]?.map (fun d => d.status) = some "online") ∧
    (bScenOffline.heap[0]?.map (fun d => d.status) = some "offline") := by
  refine ⟨?_, ?_, ?_, by decide, by decide⟩
  · intro b now a hnd
    exact sweep_fold now b.devices b.heap a hnd
  · intro now d
    by_cases hc : d.status = "online" ∧ now - d.lastSeen > 60 <;> simp [sweepDevice, hc]
  · intro b id s r now a hlk
    simp [updateDeviceStatus, hlk, applyAt_get_self]

/-- Witness for C7 at the concrete registry `bReg` swept at time 90. -/
theorem c7_liveness_sweep_witness :
    (checkInactiveDevices bReg 90).heap[0]? =
      (if 0 ∈ bReg.devices.map Prod.snd then bReg.heap[0]?.map (sweepDevice 90)
       else bReg.heap[0]?) :=
  c7_liveness_sweep.1 bReg 90 0 (by decide)

/-- C8 evaluated on the failing input: `GetDevices` hands out the pointer to
the live record; after a later `updateDeviceStatus` the caller dereferences
the same pointer and observes the mutated record — not the snapshot taken at
call time. -/
theorem c8_snapshot_violated_code_eval :
    GetDevices bReg = [0] ∧
    derefDevices bReg (GetDevices bReg) =
      [some { dev0 with status := "online", lastSeen := 0 }] ∧
    derefDevices (updateDeviceStatus bReg "FIZR001" "offline" 0 5) (GetDevices bReg) =
      [some { dev0 with status := "offline", lastSeen := 5 }] := by decide

/-! ### Hex-digest lemmas for the bond ID -/

/-- The lowercase hex alphabet produced by `encoding/hex`. -/
def hexAlphabet : List Char := "0123456789abcdef".data

lemma hexDigitChar_mem : ∀ n : Nat, n < 16 → hexDigitChar n ∈ hexAlphabet := by decide

lemma hexEncodeChars_mem (bs : List Nat) : (∀ b ∈ bs, b < 256) →
    ∀ c ∈ hexEncodeChars bs, c ∈ hexAlphabet := by
  induction bs with
  | nil => intro _ c hc; simp [hexEncodeChars] at hc
  | cons b bs ih =>
      intro hb c hc
      have hb256 : b < 256 := hb b (by simp)
      simp only [hexEncodeChars, List.mem_cons] at hc
      rcases hc with h | h | h
      · subst h
        exact hexDigitChar_mem _ ((Nat.div_lt_iff_lt_mul (by norm_num)).mpr (by omega))
      · subst h
        exact hexDigitChar_mem _ (Nat.mod_lt _ (by norm_num))
      · exact ih (fun x hx => hb x (by simp [hx])) c h

lemma hexEncodeChars_length (bs : List Nat) : (hexEncodeChars bs).length = 2 * bs.length := by
  induction bs with
  | nil => rfl
  | cons b bs ih =>
      simp only [hexEncodeChars, List.length_cons, ih]
      omega

lemma digestBytes_length (H : Hash8) : (digestBytes H).length = 32 := rfl

lemma digestBytes_lt (H : Hash8) : ∀ b ∈ digestBytes H, b < 256 := by
  intro b hb
  rw [digestBytes, List.mem_flatten] at hb
  obtain ⟨l, hl, hbl⟩ := hb
  rw [List.mem_map] at hl
  obtain ⟨w, -, rfl⟩ := hl
  simp only [wordBytesBE, List.mem_cons, List.not_mem_nil, or_false] at hbl
  rcases hbl with h | h | h | h <;> (subst h; exact Nat.mod_lt _ (by norm_num))

lemma sha256_length (msg : List Nat) : (sha256 msg).length = 32 := digestBytes_length _

lemma sha256_lt (msg : List Nat) : ∀ b ∈ sha256 msg, b < 256 := digestBytes_lt _

/-- C3: the bond ID is the first 16 lowercase-hex characters of the SHA-256
digest of the RFC3339 timestamp concatenated (through Go `fmt`) with the
collected UID sequence; it is therefore always a 16-character hex string; the
successful-validation handler stores exactly this value and moves to
`RecordingMessage`; and hashing the same UID set at two different timestamps
yields different bond IDs (evaluated at a concrete pair of timestamps), so the
bond ID is not a pure function of the UID set. -/
theorem c3_bond_id :
    (∀ (ts : String) (uids : List String),
      (generateBondID ts uids).length = 16 ∧
      ∀ c ∈ (generateBondID ts uids).data, c ∈ hexAlphabet) ∧
    (∀ (m : Manager) (now : Nat) (ts : String) (accounts : List String),
      m.currentPhase = Phase.Validating →
      (HandleEvent m now ts (EventData.uidValidated accounts)).1.bondID =
        generateBondID ts m.collectedUIDs ∧
      (HandleEvent m now ts (EventData.uidValidated accounts)).1.currentPhase =
        Phase.RecordingMessage) ∧
    generateBondID "2024-01-01T00:00:00Z" ["u1", "u2", "u3"] ≠
      generateBondID "2024-01-01T00:00:01Z" ["u1", "u2", "u3"] := by
  refine ⟨?_, ?_, by decide⟩
  · intro ts uids
    constructor
    · show ((hexEncodeChars (sha256 _)).take 16).length = 16
      rw [List.length_take, hexEncodeChars_length, sha256_length]
      omega
    · intro c hc
      have hc2 : c ∈ hexEncodeChars (sha256 (strBytes
          (ts ++ "-" ++ goFormatStringSlice uids))) :=
        List.mem_of_mem_take hc
      exact hexEncodeChars_mem _ (sha256_lt _) c hc2
  · intro m now ts accounts h1
    constructor <;> simp [HandleEvent, handleUIDValidated, h1]

/-- Witness for C3: the length statement at a concrete timestamp and UID set,
and the handler equation applied to the session that collected u1, u2, u3. -/
theorem c3_bond_id_witness :
    (generateBondID "2024-01-01T00:00:00Z" ["u1", "u2", "u3"]).length = 16 ∧
    (HandleEvent sessionAfterThree 9 "2024-01-01T00:00:00Z"
        (EventData.uidValidated ["acct1"])).1.bondID =
      generateBondID "2024-01-01T00:00:00Z" sessionAfterThree.collectedUIDs :=
  ⟨(c3_bond_id.1 "2024-01-01T00:00:00Z" ["u1", "u2", "u3"]).1,
   (c3_bond_id.2.1 sessionAfterThree 9 "2024-01-01T00:00:00Z" ["acct1"] (by decide)).1⟩

/-- C9 evaluated on the failing input: with `idleTimeout = 2` and
`deepSleepDelay = 10`, the manager reaches DeepSleep at time 4 — earlier than
`idleTimeout + deepSleepDelay = 12` after the last activity (time 0) — because
`checkIdleState` arms the timer with `idleTimeout` and `NewManager` never even
stores `DeepSleepDelay` (the first conjunct: two configs differing only in
`deepSleepDelay` build identical managers). -/
theorem c9_deep_sleep_ignores_delay_code_eval :
    newPowerManager pmCfg 0 = newPowerManager { idleTimeout := 2, deepSleepDelay := 999 } 0 ∧
    pmAfterTrace.state = PState.StateDeepSleep ∧
    pmAfterTrace.lastActivity = 0 ∧
    (4 : Nat) < pmCfg.idleTimeout + pmCfg.deepSleepDelay := by decide

/-- C10 counterexample: from the reachable DeepSleep state `pmDeep`, the
RecordActivity operation — which is not WakeUp — moves the state to Active,
so WakeUp is not the only operation that exits DeepSleep. -/
theorem c10_record_exits_deep_sleep_counterexample :
    pmDeep.state = PState.StateDeepSleep ∧
    PowerOp.record ≠ PowerOp.wake ∧
    (applyPowerOp PowerOp.record 5 pmDeep).state = PState.StateActive := by decide

/-- C10 (amended): WakeUp and RecordActivity are the only operations that move
the power state out of DeepSleep; whichever of the two performs the exit
forces Active and sets `lastActivity` to the current time. -/
theorem c10_deep_sleep_exits (m : PowerManager) (now : Nat) (op : PowerOp)
    (hpre : m.state = PState.StateDeepSleep)
    (hpost : (applyPowerOp op now m).state ≠ PState.StateDeepSleep) :
    (op = PowerOp.wake ∨ op = PowerOp.record) ∧
    (applyPowerOp op now m).state = PState.StateActive ∧
    (applyPowerOp op now m).lastActivity = now := by
  cases op with
  | record =>
      refine ⟨Or.inr rfl, ?_, ?_⟩ <;>
        cases h : m.deepSleepTimer <;>
          simp [applyPowerOp, recordActivity, hpre, h]
  | check =>
      exact absurd (by simp [applyPowerOp, checkIdleState, hpre]) hpost
  | fire =>
      refine absurd ?_ hpost
      rcases h : m.deepSleepTimer with _ | (_ | t) <;>
        simp [applyPowerOp, fireDeepSleepTimer, enterDeepSleep, h, hpre]
      split <;> simp [hpre]
  | wake =>
      refine ⟨Or.inl rfl, ?_, ?_⟩ <;> simp [applyPowerOp, wakeUp, hpre]

/-- Witness for the amended C10 theorem at the concrete DeepSleep state
`pmDeep` with a RecordActivity step at time 5. -/
theorem c10_deep_sleep_exits_witness :
    (PowerOp.record = PowerOp.wake ∨ PowerOp.record = PowerOp.record) ∧
    (applyPowerOp PowerOp.record 5 pmDeep).state = PState.StateActive ∧
    (applyPowerOp PowerOp.record 5 pmDeep).lastActivity = 5 :=
  c10_deep_sleep_exits pmDeep 5 PowerOp.record (by decide) (by decide)

/-- Validation of the SHA-256 embedding against the FIPS 180-4 test vector
for the message "abc". -/
theorem sha256_abc_test_vector :
    String.mk (hexEncodeChars (sha256 (strBytes "abc"))) =
      "ba7816bf8f01cfea414140de5dae2223b00361a396177a9cb410ff61f20015ad" := by decide

end FizHub
